import Mathlib

/-!
# Verification of `smallbox`'s `StackBox` (src/stackbox.rs)

Shallow embedding of the inline storage cell `StackBox<T, Space>`.

Modelling decisions, traced to the source:

* A concrete value `U` is modelled by `Value`: its fat-pointer metadata
  (`Descriptor`, carrying the vtable reference or element count together
  with the concrete byte size it determines) and its raw byte
  representation (`bytes : List Nat`).  `mem::size_of::<U>()` is
  `v.bytes.length`; well-formedness ties it to the descriptor's size.
* A capacity tag `Space` is modelled by `CapacityTag`: a type identity
  `id` and `mem::size_of::<Space>()` as `byte_size`.  The source only
  ever queries the size.
* `StackBox` stores the `ptr: Unique<T>` field as its two components
  (`ptrAddr`, the address captured at construction time — stale as soon
  as the value moves — and `ptrDescriptor`, the metadata), the address
  of its own `space` buffer, the buffer contents, and the capacity tag.
* `ptr::copy_nonoverlapping(&src, &mut uninit, 1)` into an uninitialized
  buffer is `writeBytes`: the source bytes followed by the untouched
  tail of the uninitialized buffer.
* `mem::forget` emits no finalize event; `ptr::drop_in_place` emits one
  finalize event for the value read through the reconstructed handle.
  Operations therefore return the list of finalize events they perform.
-/

/-- Fat-pointer metadata: the non-address half of `Unique<T>` / `*const T`
for a dynamically sized `T` — a vtable reference or an element count
(`meta`), which determines the concrete value's byte size (`size`). -/
structure Descriptor where
  meta : Nat
  size : Nat
deriving DecidableEq, Repr

/-- A concrete value `U`: its descriptor (as derived when unsizing
`&mut U` to `Unique<T>`) and its raw byte representation. -/
structure Value where
  descriptor : Descriptor
  bytes : List Nat
deriving DecidableEq, Repr

/-- `mem::size_of::<U>()`. -/
def Value.size_of (v : Value) : Nat := v.bytes.length

/-- A value is well formed when the byte size recorded in its descriptor
matches its actual representation. -/
def Value.wf (v : Value) : Prop := v.bytes.length = v.descriptor.size

instance (v : Value) : Decidable v.wf := by
  unfold Value.wf; infer_instance

/-- A capacity tag `Space`: a marker type (`id` is its type identity,
distinguishing unrelated tags) whose only queried attribute is
`mem::size_of::<Space>()`. -/
structure CapacityTag where
  id : Nat
  byte_size : Nat
deriving DecidableEq, Repr

/-- A raw fat pointer `*const T`: address plus descriptor. -/
structure Handle where
  addr : Nat
  descriptor : Descriptor
deriving DecidableEq, Repr

/-- `StackBox<T, Space>`: the `ptr: Unique<T>` field split into its
address and metadata components, plus the inline `space` buffer (its
address and contents) and the capacity tag. -/
structure StackBox where
  ptrAddr : Nat
  ptrDescriptor : Descriptor
  spaceAddr : Nat
  space : List Nat
  capacity : CapacityTag
deriving DecidableEq, Repr

/-- `ptr::copy_nonoverlapping(&src, buf, 1)` into a buffer `buf` of
uninitialized bytes: the first `src.length` bytes are overwritten, the
tail of `buf` keeps its previous (junk) contents. -/
def writeBytes (buf src : List Nat) : List Nat :=
  src ++ buf.drop src.length

/-- `StackBox::box_up(val)`: capture the fat pointer to `val` at its
call-site address (`Unique::new(&mut val)`), copy `val`'s bytes into a
fresh uninitialized buffer of the capacity's size located at `bufAddr`,
and `mem::forget(val)`.  `uninit` is the junk content of
`mem::uninitialized::<Space>()`. -/
def StackBox.box_up (cap : CapacityTag) (v : Value) (valAddr bufAddr : Nat)
    (uninit : List Nat) : StackBox :=
  { ptrAddr := valAddr
    ptrDescriptor := v.descriptor
    spaceAddr := bufAddr
    space := writeBytes uninit v.bytes
    capacity := cap }

/-- `StackBox::new(val)`: reject when
`mem::size_of::<U>() > mem::size_of::<Space>()`, returning `Err(val)`;
otherwise `box_up`.  The second component is the list of finalize
events performed: none in either branch (`Err` moves the value back
untouched, `box_up` ends in `mem::forget(val)`). -/
def StackBox.new (cap : CapacityTag) (v : Value) (valAddr bufAddr : Nat)
    (uninit : List Nat) : Except Value StackBox × List Value :=
  if v.size_of > cap.byte_size then
    (Except.error v, [])
  else
    (Except.ok (StackBox.box_up cap v valAddr bufAddr uninit), [])

/-- `StackBox::as_ptr`: copy the (stale) stored fat pointer into a
local, then overwrite its address word with `&self.space`. -/
def StackBox.as_ptr (b : StackBox) : Handle :=
  let ptr : Handle := { addr := b.ptrAddr, descriptor := b.ptrDescriptor }
  { ptr with addr := b.spaceAddr }

/-- The value observed through the reconstructed handle: the
descriptor, together with the bytes at the cell's own buffer for the
length the descriptor determines. -/
def StackBox.readValue (b : StackBox) : Value :=
  { descriptor := b.as_ptr.descriptor
    bytes := b.space.take b.as_ptr.descriptor.size }

/-- `Deref::deref` in explicit state-passing form: the receiver is
`&self`, the body computes a local pointer copy and performs no store
to `self`'s fields, so the cell comes back unchanged alongside the
reconstructed handle. -/
def StackBox.derefS (b : StackBox) : StackBox × Handle :=
  (b, b.as_ptr)

/-- `DerefMut::deref_mut` in the same state-passing form: it also only
reconstructs the handle (`self.as_ptr() as *mut T`). -/
def StackBox.deref_mutS (b : StackBox) : StackBox × Handle :=
  (b, b.as_ptr)

/-- `StackBox::resize::<ToSpace>`: reject when
`mem::size_of::<Space>() > mem::size_of::<ToSpace>()`, returning
`Err(self)`; otherwise copy the old buffer's `size_of::<Space>()` bytes
into a fresh uninitialized `ToSpace` buffer at `newBufAddr`, carry the
`ptr` field over unchanged, and `mem::forget(self)`.  The second
component is the list of finalize events performed: none in either
branch. -/
def StackBox.resize (b : StackBox) (toCap : CapacityTag) (newBufAddr : Nat)
    (uninit : List Nat) : Except StackBox StackBox × List Value :=
  if b.capacity.byte_size > toCap.byte_size then
    (Except.error b, [])
  else
    (Except.ok
      { ptrAddr := b.ptrAddr
        ptrDescriptor := b.ptrDescriptor
        spaceAddr := newBufAddr
        space := writeBytes uninit b.space
        capacity := toCap }, [])

/-- `Drop::drop`: `ptr::drop_in_place(&mut **self)` — finalize, exactly
once, the value read through the reconstructed handle. -/
def StackBox.dropBox (b : StackBox) : List Value :=
  [b.readValue]

/-- The finalize events of constructing a cell from `v` and immediately
destroying it (empty when construction is rejected, since the rejected
caller retains the value). -/
def constructAndDrop (cap : CapacityTag) (v : Value) (valAddr bufAddr : Nat)
    (uninit : List Nat) : List Value :=
  match StackBox.new cap v valAddr bufAddr uninit with
  | (Except.ok b, evs) => evs ++ b.dropBox
  | (Except.error _, evs) => evs

/-- Live-cell invariant established by construction: the buffer has
exactly the capacity's size and the stored value's size fits it. -/
def StackBox.wf (b : StackBox) : Prop :=
  b.space.length = b.capacity.byte_size ∧
    b.ptrDescriptor.size ≤ b.capacity.byte_size

instance (b : StackBox) : Decidable b.wf := by
  unfold StackBox.wf; infer_instance

/-- Equality of two cells (`PartialEq for StackBox`): pure delegation of
the underlying type's equality to the two dereferenced values. -/
def StackBox.eqBy (eqT : Value → Value → Bool) (a b : StackBox) : Bool :=
  eqT a.readValue b.readValue

/-- Comparison of two cells (`Ord for StackBox`): delegation of the
underlying type's comparison. -/
def StackBox.cmpBy (cmpT : Value → Value → Ordering) (a b : StackBox) : Ordering :=
  cmpT a.readValue b.readValue

/-- Hashing a cell (`Hash for StackBox`): delegation of the underlying
type's hash. -/
def StackBox.hashBy (hashT : Value → Nat) (a : StackBox) : Nat :=
  hashT a.readValue

/-- Formatting a cell (`Display`/`Debug for StackBox`): delegation of
the underlying type's formatter. -/
def StackBox.fmtBy (fmtT : Value → String) (a : StackBox) : String :=
  fmtT a.readValue

/-- Formatting a cell in explicit state-passing form: the `&self`
receiver comes back unchanged alongside the formatted text (the source
body only reads through the reconstructed handle). -/
def StackBox.fmtS (fmtT : Value → String) (b : StackBox) : StackBox × String :=
  (b, StackBox.fmtBy fmtT b)

/-- Hashing a cell in explicit state-passing form. -/
def StackBox.hashS (hashT : Value → Nat) (b : StackBox) : StackBox × Nat :=
  (b, StackBox.hashBy hashT b)

/-- Comparing two cells in explicit state-passing form: both `&self`
and `&other` come back unchanged alongside the comparison result. -/
def StackBox.eqS (eqT : Value → Value → Bool) (a b : StackBox) :
    (StackBox × StackBox) × Bool :=
  ((a, b), StackBox.eqBy eqT a b)

/-! ## Helper lemmas -/

/-- Reading `n` bytes back out of a buffer that `writeBytes` filled
with at least `n` source bytes sees only source bytes. -/
theorem writeBytes_take (buf src : List Nat) (n : Nat) (h : n ≤ src.length) :
    (writeBytes buf src).take n = src.take n := by
  unfold writeBytes
  rw [List.take_append_eq_append_take]
  simp [Nat.sub_eq_zero_of_le h]

/-- The buffer produced by `writeBytes` retains at least the source bytes. -/
theorem writeBytes_length (buf src : List Nat) :
    src.length ≤ (writeBytes buf src).length := by
  unfold writeBytes
  simp

/-- Dereferencing a freshly boxed-up well-formed value reads it back exactly. -/
theorem readValue_box_up (cap : CapacityTag) (v : Value) (valAddr bufAddr : Nat)
    (uninit : List Nat) (hwf : v.wf) :
    (StackBox.box_up cap v valAddr bufAddr uninit).readValue = v := by
  unfold StackBox.box_up StackBox.readValue StackBox.as_ptr
  unfold Value.wf at hwf
  simp only
  rw [writeBytes_take _ _ _ (le_of_eq hwf.symm), ← hwf, List.take_length]

/-- Constructing a fitting well-formed value and dropping the cell
finalizes exactly that value, once. -/
theorem constructAndDrop_eq (cap : CapacityTag) (v : Value) (valAddr bufAddr : Nat)
    (uninit : List Nat) (hwf : v.wf) (hfit : v.size_of ≤ cap.byte_size) :
    constructAndDrop cap v valAddr bufAddr uninit = [v] := by
  unfold constructAndDrop StackBox.new
  rw [if_neg (by omega)]
  simp [StackBox.dropBox, readValue_box_up cap v valAddr bufAddr uninit hwf]

/-! ## Claim theorems -/

/-- Claim C1: `StackBox::new` succeeds exactly when the value's byte size is
at most the capacity tag's byte size — boundary inclusive (equality
succeeds), one byte larger fails, and a zero-size value always succeeds
since `0 ≤ byte_size`. -/
theorem stackbox_new_iff_fits (cap : CapacityTag) (v : Value) (valAddr bufAddr : Nat)
    (uninit : List Nat) :
    (StackBox.new cap v valAddr bufAddr uninit).1.isOk = true ↔
      v.size_of ≤ cap.byte_size := by
  unfold StackBox.new
  by_cases h : v.size_of > cap.byte_size
  · rw [if_pos h]
    simp [Except.isOk, Except.toBool]
    omega
  · rw [if_neg h]
    simp [Except.isOk, Except.toBool]
    omega

/-- Claim C2: round-trip — for every well-formed value fitting the
capacity, construction succeeds with the boxed-up cell, and reading the
cell yields exactly the original value; hence every capability function
applied to the read value agrees with the capability applied to the
original value. -/
theorem stackbox_roundTrip (cap : CapacityTag) (v : Value) (valAddr bufAddr : Nat)
    (uninit : List Nat) (hwf : v.wf) (hfit : v.size_of ≤ cap.byte_size) :
    (StackBox.new cap v valAddr bufAddr uninit).1 =
        Except.ok (StackBox.box_up cap v valAddr bufAddr uninit) ∧
      (StackBox.box_up cap v valAddr bufAddr uninit).readValue = v ∧
      ∀ (f : Value → Nat),
        f (StackBox.box_up cap v valAddr bufAddr uninit).readValue = f v := by
  have hr := readValue_box_up cap v valAddr bufAddr uninit hwf
  refine ⟨?_, hr, fun f => by rw [hr]⟩
  unfold StackBox.new
  rw [if_neg (by omega)]

/-- Witness for C2 at a concrete input: a 2-byte value in a 4-byte capacity. -/
theorem stackbox_roundTrip_witness :
    (StackBox.new ⟨0, 4⟩ ⟨⟨7, 2⟩, [1, 2]⟩ 100 200 [9, 9, 9, 9]).1 =
        Except.ok (StackBox.box_up ⟨0, 4⟩ ⟨⟨7, 2⟩, [1, 2]⟩ 100 200 [9, 9, 9, 9]) ∧
      (StackBox.box_up ⟨0, 4⟩ ⟨⟨7, 2⟩, [1, 2]⟩ 100 200 [9, 9, 9, 9]).readValue =
        ⟨⟨7, 2⟩, [1, 2]⟩ ∧
      ∀ (f : Value → Nat),
        f (StackBox.box_up ⟨0, 4⟩ ⟨⟨7, 2⟩, [1, 2]⟩ 100 200 [9, 9, 9, 9]).readValue =
          f ⟨⟨7, 2⟩, [1, 2]⟩ :=
  stackbox_roundTrip ⟨0, 4⟩ ⟨⟨7, 2⟩, [1, 2]⟩ 100 200 [9, 9, 9, 9]
    (by decide) (by decide)

/-- Claim C3: rejection is total and side-effect free — when the value's
byte size exceeds the capacity, `StackBox::new` returns exactly
`Err(value)` with the value bit-for-bit unchanged and performs no
finalize event (and builds no cell, so no bytes are moved). -/
theorem stackbox_reject_total (cap : CapacityTag) (v : Value) (valAddr bufAddr : Nat)
    (uninit : List Nat) (h : cap.byte_size < v.size_of) :
    StackBox.new cap v valAddr bufAddr uninit = (Except.error v, []) := by
  unfold StackBox.new
  rw [if_pos (by omega)]

/-- Witness for C3 at a concrete input: a 5-byte value in a 4-byte capacity. -/
theorem stackbox_reject_total_witness :
    StackBox.new ⟨0, 4⟩ ⟨⟨7, 5⟩, [1, 2, 3, 4, 5]⟩ 100 200 [9, 9, 9, 9] =
      (Except.error ⟨⟨7, 5⟩, [1, 2, 3, 4, 5]⟩, []) :=
  stackbox_reject_total ⟨0, 4⟩ ⟨⟨7, 5⟩, [1, 2, 3, 4, 5]⟩ 100 200 [9, 9, 9, 9]
    (by decide)

/-- Claim C4: exactly-once finalize — constructing and destroying N
cells produces exactly the N stored values as finalize observations
(one each, never fewer nor more); and after a successful resize the
resize step itself emits no finalize for the superseded original, while
dropping the new cell finalizes the stored value exactly once. -/
theorem stackbox_finalize_exactly_once (cap toCap : CapacityTag) (vs : List Value)
    (v : Value) (valAddr bufAddr newBufAddr : Nat) (uninit uninit2 : List Nat)
    (hvs : ∀ w ∈ vs, w.wf ∧ w.size_of ≤ cap.byte_size)
    (hwf : v.wf) (hfit : v.size_of ≤ cap.byte_size)
    (hup : cap.byte_size ≤ toCap.byte_size) :
    (vs.map fun w => constructAndDrop cap w valAddr bufAddr uninit).flatten = vs ∧
      ∃ b2, (StackBox.box_up cap v valAddr bufAddr uninit).resize toCap newBufAddr
          uninit2 = (Except.ok b2, []) ∧ b2.dropBox = [v] := by
  constructor
  · induction vs with
    | nil => simp
    | cons w ws ih =>
      have hw := hvs w (by simp)
      have hws : ∀ u ∈ ws, u.wf ∧ u.size_of ≤ cap.byte_size := by
        intro u hu
        exact hvs u (by simp [hu])
      simp only [List.map_cons, List.flatten_cons,
        constructAndDrop_eq cap w valAddr bufAddr uninit hw.1 hw.2, ih hws]
      rfl
  · refine ⟨StackBox.mk valAddr v.descriptor newBufAddr
        (writeBytes uninit2 (writeBytes uninit v.bytes)) toCap, ?_, ?_⟩
    · unfold StackBox.resize
      rw [if_neg (by unfold StackBox.box_up; simp; omega)]
      rfl
    · unfold StackBox.dropBox StackBox.readValue StackBox.as_ptr
      unfold Value.wf at hwf
      simp only
      rw [writeBytes_take _ _ _ (le_trans (le_of_eq hwf.symm)
            (writeBytes_length uninit v.bytes)),
        writeBytes_take _ _ _ (le_of_eq hwf.symm), ← hwf, List.take_length]

/-- Witness for C4 at a concrete input: two cells constructed and
destroyed give exactly their two values as finalize observations, and a
construct-resize-drop chain finalizes its value exactly once. -/
theorem stackbox_finalize_exactly_once_witness :
    (([⟨⟨7, 2⟩, [1, 2]⟩, ⟨⟨8, 1⟩, [3]⟩] : List Value).map fun w =>
        constructAndDrop ⟨0, 4⟩ w 100 200 [9, 9, 9, 9]).flatten =
        [⟨⟨7, 2⟩, [1, 2]⟩, ⟨⟨8, 1⟩, [3]⟩] ∧
      ∃ b2, (StackBox.box_up ⟨0, 4⟩ ⟨⟨7, 2⟩, [1, 2]⟩ 100 200 [9, 9, 9, 9]).resize
          ⟨1, 8⟩ 300 [9, 9, 9, 9, 9, 9, 9, 9] = (Except.ok b2, []) ∧
        b2.dropBox = [⟨⟨7, 2⟩, [1, 2]⟩] :=
  stackbox_finalize_exactly_once ⟨0, 4⟩ ⟨1, 8⟩ [⟨⟨7, 2⟩, [1, 2]⟩, ⟨⟨8, 1⟩, [3]⟩]
    ⟨⟨7, 2⟩, [1, 2]⟩ 100 200 300 [9, 9, 9, 9] [9, 9, 9, 9, 9, 9, 9, 9]
    (by decide) (by decide) (by decide) (by decide)

/-- Claim C5: `StackBox::resize` succeeds exactly when the target
capacity's byte size is at least the current capacity's byte size — for
every cell and every pair of capacities the outcome is determined
purely by that size comparison. -/
theorem stackbox_resize_iff (b : StackBox) (toCap : CapacityTag) (newBufAddr : Nat)
    (uninit : List Nat) :
    (b.resize toCap newBufAddr uninit).1.isOk = true ↔
      b.capacity.byte_size ≤ toCap.byte_size := by
  unfold StackBox.resize
  by_cases h : b.capacity.byte_size > toCap.byte_size
  · rw [if_pos h]
    simp [Except.isOk, Except.toBool]
    omega
  · rw [if_neg h]
    simp [Except.isOk, Except.toBool]
    omega

/-- Counterexample to claim C6 as stated: resizing to an unrelated
capacity (a tag of different identity) does not always fail — here a
cell with capacity `⟨0, 4⟩` resized to the unrelated tag `⟨1, 8⟩`
succeeds, because the source compares only the two byte sizes. -/
theorem stackbox_resize_unrelated_succeeds :
    ((StackBox.box_up ⟨0, 4⟩ ⟨⟨7, 2⟩, [1, 2]⟩ 100 200 [9, 9, 9, 9]).resize ⟨1, 8⟩
        300 [9, 9, 9, 9, 9, 9, 9, 9]).1.isOk = true ∧
      (⟨1, 8⟩ : CapacityTag).id ≠ (⟨0, 4⟩ : CapacityTag).id := by
  decide

/-- Claim C6 (amended): resize to a capacity of strictly smaller byte
size always fails, and on every resize failure the original cell is
returned completely unchanged — literally the same cell, still owning
its value — and still finalizes exactly once (its stored value) when
eventually destroyed. -/
theorem stackbox_resize_smaller_fails (b : StackBox) (toCap : CapacityTag)
    (newBufAddr : Nat) (uninit : List Nat)
    (h : toCap.byte_size < b.capacity.byte_size) :
    b.resize toCap newBufAddr uninit = (Except.error b, []) ∧
      b.dropBox = [b.readValue] := by
  refine ⟨?_, rfl⟩
  unfold StackBox.resize
  rw [if_pos (by omega)]

/-- Witness for the amended C6 at a concrete input: an 8-byte cell
resized down to a 4-byte capacity fails and hands the cell back. -/
theorem stackbox_resize_smaller_fails_witness :
    (StackBox.box_up ⟨1, 8⟩ ⟨⟨7, 2⟩, [1, 2]⟩ 100 200
          [9, 9, 9, 9, 9, 9, 9, 9]).resize ⟨0, 4⟩ 300 [9, 9, 9, 9] =
        (Except.error (StackBox.box_up ⟨1, 8⟩ ⟨⟨7, 2⟩, [1, 2]⟩ 100 200
          [9, 9, 9, 9, 9, 9, 9, 9]), []) ∧
      (StackBox.box_up ⟨1, 8⟩ ⟨⟨7, 2⟩, [1, 2]⟩ 100 200
          [9, 9, 9, 9, 9, 9, 9, 9]).dropBox =
        [(StackBox.box_up ⟨1, 8⟩ ⟨⟨7, 2⟩, [1, 2]⟩ 100 200
          [9, 9, 9, 9, 9, 9, 9, 9]).readValue] :=
  stackbox_resize_smaller_fails
    (StackBox.box_up ⟨1, 8⟩ ⟨⟨7, 2⟩, [1, 2]⟩ 100 200 [9, 9, 9, 9, 9, 9, 9, 9])
    ⟨0, 4⟩ 300 [9, 9, 9, 9] (by decide)

/-- Claim C7: resize to a strictly larger capacity always succeeds, the
value's bytes are relocated into the new buffer (the old buffer is a
prefix of the new one), the descriptor is carried over unchanged, and
reading the new cell yields exactly the value read from the original
cell before the resize. -/
theorem stackbox_resize_larger (b : StackBox) (toCap : CapacityTag)
    (newBufAddr : Nat) (uninit : List Nat) (hwfb : b.wf)
    (h : b.capacity.byte_size < toCap.byte_size) :
    ∃ b2, b.resize toCap newBufAddr uninit = (Except.ok b2, []) ∧
      b2.ptrDescriptor = b.ptrDescriptor ∧
      b2.spaceAddr = newBufAddr ∧
      b2.capacity = toCap ∧
      b2.space.take b.space.length = b.space ∧
      b2.readValue = b.readValue := by
  obtain ⟨hlen, hsize⟩ := hwfb
  refine ⟨StackBox.mk b.ptrAddr b.ptrDescriptor newBufAddr
      (writeBytes uninit b.space) toCap, ?_, rfl, rfl, rfl, ?_, ?_⟩
  · unfold StackBox.resize
    rw [if_neg (by omega)]
  · rw [writeBytes_take _ _ _ (le_refl b.space.length), List.take_length]
  · unfold StackBox.readValue StackBox.as_ptr
    simp only
    rw [writeBytes_take _ _ _ (by omega : b.ptrDescriptor.size ≤ b.space.length)]

/-- Witness for C7 at a concrete input: a well-formed 4-byte cell
resized up to an 8-byte capacity. -/
theorem stackbox_resize_larger_witness :
    ∃ b2, (StackBox.box_up ⟨0, 4⟩ ⟨⟨7, 2⟩, [1, 2]⟩ 100 200
          [9, 9, 9, 9]).resize ⟨1, 8⟩ 300 [9, 9, 9, 9, 9, 9, 9, 9] =
        (Except.ok b2, []) ∧
      b2.ptrDescriptor =
        (StackBox.box_up ⟨0, 4⟩ ⟨⟨7, 2⟩, [1, 2]⟩ 100 200 [9, 9, 9, 9]).ptrDescriptor ∧
      b2.spaceAddr = 300 ∧
      b2.capacity = ⟨1, 8⟩ ∧
      b2.space.take (StackBox.box_up ⟨0, 4⟩ ⟨⟨7, 2⟩, [1, 2]⟩ 100 200
          [9, 9, 9, 9]).space.length =
        (StackBox.box_up ⟨0, 4⟩ ⟨⟨7, 2⟩, [1, 2]⟩ 100 200 [9, 9, 9, 9]).space ∧
      b2.readValue =
        (StackBox.box_up ⟨0, 4⟩ ⟨⟨7, 2⟩, [1, 2]⟩ 100 200 [9, 9, 9, 9]).readValue :=
  stackbox_resize_larger
    (StackBox.box_up ⟨0, 4⟩ ⟨⟨7, 2⟩, [1, 2]⟩ 100 200 [9, 9, 9, 9])
    ⟨1, 8⟩ 300 [9, 9, 9, 9, 9, 9, 9, 9] (by decide) (by decide)

/-- Claim C8: every handle reconstructed by read (`deref`) or
read-write (`deref_mut`) access goes through `as_ptr`, whose address
component is the cell's own buffer address (`spaceAddr`) and whose
descriptor is the one stored at construction; for a constructed cell
this is the fresh buffer address and the value's descriptor, and — when
the call site and the buffer differ — never the stale call-site address
the value was moved from. -/
theorem stackbox_handle_reconstruction (b : StackBox) (cap : CapacityTag)
    (v : Value) (valAddr bufAddr : Nat) (uninit : List Nat)
    (hne : valAddr ≠ bufAddr) :
    b.derefS.2 = b.as_ptr ∧
      b.deref_mutS.2 = b.as_ptr ∧
      b.as_ptr.addr = b.spaceAddr ∧
      b.as_ptr.descriptor = b.ptrDescriptor ∧
      (StackBox.box_up cap v valAddr bufAddr uninit).as_ptr.addr = bufAddr ∧
      (StackBox.box_up cap v valAddr bufAddr uninit).as_ptr.descriptor =
        v.descriptor ∧
      (StackBox.box_up cap v valAddr bufAddr uninit).as_ptr.addr ≠ valAddr := by
  refine ⟨rfl, rfl, rfl, rfl, rfl, rfl, ?_⟩
  unfold StackBox.box_up StackBox.as_ptr
  simp only
  exact fun hc => hne hc.symm

/-- Witness for C8 at a concrete input: a cell whose value was moved
from call-site address 100 into the buffer at address 200. -/
theorem stackbox_handle_reconstruction_witness :
    (StackBox.box_up ⟨0, 4⟩ ⟨⟨7, 2⟩, [1, 2]⟩ 100 200 [9, 9, 9, 9]).derefS.2 =
        (StackBox.box_up ⟨0, 4⟩ ⟨⟨7, 2⟩, [1, 2]⟩ 100 200 [9, 9, 9, 9]).as_ptr ∧
      (StackBox.box_up ⟨0, 4⟩ ⟨⟨7, 2⟩, [1, 2]⟩ 100 200 [9, 9, 9, 9]).deref_mutS.2 =
        (StackBox.box_up ⟨0, 4⟩ ⟨⟨7, 2⟩, [1, 2]⟩ 100 200 [9, 9, 9, 9]).as_ptr ∧
      (StackBox.box_up ⟨0, 4⟩ ⟨⟨7, 2⟩, [1, 2]⟩ 100 200 [9, 9, 9, 9]).as_ptr.addr =
        (StackBox.box_up ⟨0, 4⟩ ⟨⟨7, 2⟩, [1, 2]⟩ 100 200 [9, 9, 9, 9]).spaceAddr ∧
      (StackBox.box_up ⟨0, 4⟩ ⟨⟨7, 2⟩, [1, 2]⟩ 100 200
            [9, 9, 9, 9]).as_ptr.descriptor =
        (StackBox.box_up ⟨0, 4⟩ ⟨⟨7, 2⟩, [1, 2]⟩ 100 200 [9, 9, 9, 9]).ptrDescriptor ∧
      (StackBox.box_up ⟨0, 4⟩ ⟨⟨7, 2⟩, [1, 2]⟩ 100 200 [9, 9, 9, 9]).as_ptr.addr =
        200 ∧
      (StackBox.box_up ⟨0, 4⟩ ⟨⟨7, 2⟩, [1, 2]⟩ 100 200
            [9, 9, 9, 9]).as_ptr.descriptor = ⟨7, 2⟩ ∧
      (StackBox.box_up ⟨0, 4⟩ ⟨⟨7, 2⟩, [1, 2]⟩ 100 200 [9, 9, 9, 9]).as_ptr.addr ≠
        100 :=
  stackbox_handle_reconstruction
    (StackBox.box_up ⟨0, 4⟩ ⟨⟨7, 2⟩, [1, 2]⟩ 100 200 [9, 9, 9, 9])
    ⟨0, 4⟩ ⟨⟨7, 2⟩, [1, 2]⟩ 100 200 [9, 9, 9, 9] (by decide)

/-- Claim C9: capability forwarding is pure delegation — for cells
constructed from well-formed fitting values at arbitrary buffer
addresses and arbitrary capacity tags, comparing, hashing, or
formatting the cells equals applying the same operation to the
underlying values directly; in particular two cells holding equal
values at different buffer addresses compare equal, since the result
does not mention the addresses at all. -/
theorem stackbox_delegation (eqT : Value → Value → Bool)
    (cmpT : Value → Value → Ordering) (hashT : Value → Nat)
    (fmtT : Value → String) (cap1 cap2 : CapacityTag) (v w : Value)
    (a1 s1 a2 s2 : Nat) (u1 u2 : List Nat) (hv : v.wf) (hw : w.wf)
    (h1 : v.size_of ≤ cap1.byte_size) (h2 : w.size_of ≤ cap2.byte_size) :
    StackBox.eqBy eqT (StackBox.box_up cap1 v a1 s1 u1)
        (StackBox.box_up cap2 w a2 s2 u2) = eqT v w ∧
      StackBox.cmpBy cmpT (StackBox.box_up cap1 v a1 s1 u1)
        (StackBox.box_up cap2 w a2 s2 u2) = cmpT v w ∧
      StackBox.hashBy hashT (StackBox.box_up cap1 v a1 s1 u1) = hashT v ∧
      StackBox.fmtBy fmtT (StackBox.box_up cap1 v a1 s1 u1) = fmtT v := by
  have r1 := readValue_box_up cap1 v a1 s1 u1 hv
  have r2 := readValue_box_up cap2 w a2 s2 u2 hw
  unfold StackBox.eqBy StackBox.cmpBy StackBox.hashBy StackBox.fmtBy
  rw [r1, r2]
  exact ⟨rfl, rfl, rfl, rfl⟩

/-- Witness for C9 at a concrete input: two cells holding the same
value at different buffer addresses (200 and 500) and under different
capacity tags, compared with structural equality. -/
theorem stackbox_delegation_witness :
    StackBox.eqBy (fun x y => decide (x = y))
        (StackBox.box_up ⟨0, 4⟩ ⟨⟨7, 2⟩, [1, 2]⟩ 100 200 [9, 9, 9, 9])
        (StackBox.box_up ⟨1, 8⟩ ⟨⟨7, 2⟩, [1, 2]⟩ 400 500
          [9, 9, 9, 9, 9, 9, 9, 9]) =
        decide ((⟨⟨7, 2⟩, [1, 2]⟩ : Value) = ⟨⟨7, 2⟩, [1, 2]⟩) ∧
      StackBox.cmpBy (fun _ _ => Ordering.eq)
        (StackBox.box_up ⟨0, 4⟩ ⟨⟨7, 2⟩, [1, 2]⟩ 100 200 [9, 9, 9, 9])
        (StackBox.box_up ⟨1, 8⟩ ⟨⟨7, 2⟩, [1, 2]⟩ 400 500
          [9, 9, 9, 9, 9, 9, 9, 9]) = Ordering.eq ∧
      StackBox.hashBy Value.size_of
        (StackBox.box_up ⟨0, 4⟩ ⟨⟨7, 2⟩, [1, 2]⟩ 100 200 [9, 9, 9, 9]) =
        Value.size_of ⟨⟨7, 2⟩, [1, 2]⟩ ∧
      StackBox.fmtBy (fun _ => "v")
        (StackBox.box_up ⟨0, 4⟩ ⟨⟨7, 2⟩, [1, 2]⟩ 100 200 [9, 9, 9, 9]) = "v" :=
  stackbox_delegation (fun x y => decide (x = y)) (fun _ _ => Ordering.eq)
    Value.size_of (fun _ => "v") ⟨0, 4⟩ ⟨1, 8⟩ ⟨⟨7, 2⟩, [1, 2]⟩ ⟨⟨7, 2⟩, [1, 2]⟩
    100 200 400 500 [9, 9, 9, 9] [9, 9, 9, 9, 9, 9, 9, 9]
    (by decide) (by decide) (by decide) (by decide)

/-- Claim C10: shared read access mutates nothing and is deterministic —
`deref`, formatting, comparison, and hashing (all taking `&self`) return
the cell with its stored pointer field and buffer bytes unchanged, and
two consecutive read accesses of the same cell return the same handle
and observe identical bytes. -/
theorem stackbox_shared_read_pure (b c : StackBox) (eqT : Value → Value → Bool)
    (hashT : Value → Nat) (fmtT : Value → String) :
    b.derefS.1 = b ∧
      b.derefS.1.ptrAddr = b.ptrAddr ∧
      b.derefS.1.space = b.space ∧
      (StackBox.fmtS fmtT b).1 = b ∧
      (StackBox.hashS hashT b).1 = b ∧
      (StackBox.eqS eqT b c).1 = (b, c) ∧
      b.derefS.1.derefS.2 = b.derefS.2 ∧
      b.derefS.1.readValue = b.readValue :=
  ⟨rfl, rfl, rfl, rfl, rfl, rfl, rfl, rfl⟩
